import Mathlib

/-!
Shallow embedding of the decision-prioritization sidecar of
crowdsec-unifi-bouncer: the scoring configuration and its lookup helpers
(`sidecar/internal/config/config.go`), the scorer
(`sidecar/internal/scorer/scorer.go`), and the proxy handler's cache,
decision endpoints and false-negative auditor
(`sidecar/internal/proxy/handler.go`).

Modelling conventions:
* Go `int`, `int64`, `time.Duration` (nanoseconds) and unix instants are
  `Int`; Go integer division (which truncates toward zero) is `Int.tdiv`.
* Go `float64` values reachable here (the scenario multiplier, the TTL
  ratio, the average score) are modelled as exact fractions
  (`Float64Val`); the Go conversion `int(f)` truncates toward zero
  (`Float64Val.truncToInt`). The reachable computations (one product, one
  ratio of small integers) are exact in `float64` as used by the default
  and test configurations, so exact fractions are a faithful model there.
* Go maps of counters are association lists updated in place
  (`bumpCount`); a Go `map[string]struct{}` set is a duplicate-free list.
  The `scenarios` YAML map is an association list in document order;
  Go `range` over that map enumerates it in an unspecified order, so every
  computation derived from iteration order is parameterized by an
  enumeration that is a permutation of the entries.
* The standard-library services `regexp.Compile`, `time.ParseDuration`,
  `net.ParseCIDR` and the wall clock are not code of this repository;
  an `Env` record carries them as oracle parameters (a compiled regex is
  its match function, `net.ParseCIDR` is abstracted to the prefix length
  it reports on success).
* HTTP and the goroutine scheduler are outside the embedding: each
  handler is a state-transition function taking the outcome of its single
  upstream call (`Except`) as an argument; `go` slice expressions that can
  panic make the embedded function return `Option` (`none` = runtime
  panic).
-/

/-- The exact rational value of a Go `float64`: the fraction `num / den`.
Every `float64` is such a fraction with a positive denominator, and every
fraction constructed in this file has `0 < den`. No normalization is
performed (two representations of the same value are equal as rationals,
not as terms). -/
structure Float64Val where
  num : Int
  den : Int
deriving DecidableEq, Repr

/-- Go `int(f)` conversion applied to an exact fraction: truncation toward
zero (`Int.tdiv`, total division truncating toward zero, is Go `/`). -/
def Float64Val.truncToInt (f : Float64Val) : Int :=
  f.num.tdiv f.den

/-- Go `float64(a) * f` as an exact fraction. -/
def Float64Val.mulInt (f : Float64Val) (a : Int) : Float64Val :=
  { num := a * f.num, den := f.den }

/-- Go `f <= 0` on a `float64` represented as a fraction with positive
denominator: the numerator is nonpositive. -/
def Float64Val.isNonpos (f : Float64Val) : Bool :=
  decide (f.num ≤ 0)

/-- Go `strings.Contains(value, "/")` specialised to one character:
membership of the character in the string. (Implemented over the character
list; the byte-position implementation of `String.contains` does not
reduce in the kernel.) -/
def strContains (s : String) (c : Char) : Bool :=
  s.data.contains c

/-- The definition `lapi.Decision` (sidecar/internal/lapi/client.go). `Typ` stands for the
Go field `Type` (a reserved word in Lean); `ParsedDuration` is in
nanoseconds; `ParsedCreated` is an instant where `0` is Go's zero
`time.Time` (`IsZero`). -/
structure Decision where
  ID : Int
  Origin : String
  Typ : String
  Scope : String
  Value : String
  Duration : String
  Scenario : String
  Simulated : Bool
  ParsedDuration : Int
  ParsedCreated : Int
  Score : Int
deriving DecidableEq, Repr

/-- The definition `config.FreshnessBonus`: `MaxAge` is kept as the raw string, parsed at
scoring time. -/
structure FreshnessBonus where
  MaxAge : String
  Bonus : Int
deriving DecidableEq, Repr

/-- The definition `config.CIDRBonus`. The Go fields are `MinPrefix`/`MaxPrefix`. -/
structure CIDRBonus where
  MinPrefixLen : Int
  MaxPrefixLen : Int
  Bonus : Int
deriving DecidableEq, Repr

/-- The definition `config.TTLScoringConfig`; `MaxTTL` in nanoseconds. -/
structure TTLScoringConfig where
  Enabled : Bool
  MaxBonus : Int
  MaxTTL : Int
deriving DecidableEq, Repr

/-- The definition `config.scenarioPattern`: a compiled scenario pattern. The compiled
regex is represented by its match function. -/
structure ScenarioPattern where
  pattern : String → Bool
  score : Int
  raw : String

/-- The definition `config.ScoringConfig`. `Scenarios`, `Origins`, `DecisionTypes` are the
YAML maps as association lists (document order, unique keys);
`compiledScenarios` is the compiled-pattern slice built by
`compilePatterns` from some enumeration of `Scenarios`. -/
structure ScoringConfig where
  Scenarios : List (String × Int)
  Origins : List (String × Int)
  TTLScoring : TTLScoringConfig
  DecisionTypes : List (String × Int)
  ScenarioMultiplier : Float64Val
  FreshnessBonuses : List FreshnessBonus
  CIDRBonuses : List CIDRBonus
  RecidivismBonus : Int
  compiledScenarios : List ScenarioPattern

/-- The definition `config.HealthConfig`. -/
structure HealthConfig where
  Enabled : Bool
  Path : String
deriving DecidableEq, Repr

/-- The definition `config.MetricsConfig`. -/
structure MetricsConfig where
  Enabled : Bool
  Path : String
deriving DecidableEq, Repr

/-- The definition `config.Config` (the fields the embedded components read; durations in
nanoseconds). -/
structure Config where
  ListenAddr : String
  UpstreamLAPIURL : String
  UpstreamLAPIKey : String
  MaxDecisions : Int
  CacheTTL : Int
  UpstreamTimeout : Int
  LogLevel : String
  Scoring : ScoringConfig
  Health : HealthConfig
  Metrics : MetricsConfig

/-- Environment oracles: the wall clock (`time.Now`, an instant in
nanoseconds), `time.ParseDuration` (`some` nanoseconds on success), and
`net.ParseCIDR` abstracted to the prefix length (`Mask.Size()` ones) it
reports on success. -/
structure Env where
  now : Int
  parseDuration : String → Option Int
  parseCIDRMaskOnes : String → Option Int

/-- The definition `compilePatterns` (config.go): compile every scenario key other than
`"default"`, in the order of the given enumeration of the map, failing on
the first pattern the regex engine rejects. `compile` is the oracle for
`regexp.Compile`. -/
def compilePatterns (compile : String → Option (String → Bool)) :
    List (String × Int) → Except String (List ScenarioPattern)
  | [] => .ok []
  | (p, score) :: rest =>
    if p == "default" then compilePatterns compile rest
    else
      match compile ("^" ++ p ++ "$") with
      | none => .error p
      | some re =>
        match compilePatterns compile rest with
        | .error e => .error e
        | .ok tail => .ok ({ pattern := re, score := score, raw := p } :: tail)

/-- The definition `Config.Validate` (config.go). -/
def Config.Validate (c : Config) : Except String Unit :=
  if c.ListenAddr == "" then .error "listen_addr is required"
  else if c.UpstreamLAPIURL == "" then .error "upstream_lapi_url is required"
  else if c.UpstreamLAPIKey == "" then .error "upstream_lapi_key is required"
  else if c.MaxDecisions ≤ 0 then .error "max_decisions must be positive"
  else if c.CacheTTL < 0 then .error "cache_ttl cannot be negative"
  else .ok ()

/-- The two validation steps of `config.Load` that can reject an already
parsed document: `Validate`, then `compilePatterns` (on success the
compiled patterns are stored into the config; we return them). Reading and
YAML-unmarshalling the file are outside the embedding. -/
def loadChecks (compile : String → Option (String → Bool)) (cfg : Config) :
    Except String (List ScenarioPattern) :=
  match cfg.Validate with
  | .error e => .error e
  | .ok _ => compilePatterns compile cfg.Scoring.Scenarios

/-- The definition `ScoringConfig.GetScenarioScore` (config.go): exact map match, then
first matching compiled pattern, then the `"default"` entry, then 0. -/
def ScoringConfig.GetScenarioScore (s : ScoringConfig) (scenario : String) : Int :=
  match s.Scenarios.lookup scenario with
  | some score => score
  | none =>
    match s.compiledScenarios.find? (fun sp => sp.pattern scenario) with
    | some sp => sp.score
    | none => (s.Scenarios.lookup "default").getD 0

/-- The definition `ScoringConfig.GetOriginScore` (config.go). -/
def ScoringConfig.GetOriginScore (s : ScoringConfig) (origin : String) : Int :=
  (s.Origins.lookup origin).getD 0

/-- The definition `ScoringConfig.GetDecisionTypeScore` (config.go); a `nil` Go map and an
empty map both yield 0, so the `nil` guard collapses into the lookup. -/
def ScoringConfig.GetDecisionTypeScore (s : ScoringConfig) (decisionType : String) : Int :=
  (s.DecisionTypes.lookup decisionType).getD 0

/-- The tier loop of `ScoringConfig.GetFreshnessBonus` (config.go): a tier
whose `max_age` fails `time.ParseDuration` is skipped (`continue`); the
first remaining tier with `age ≤ maxAge` wins; otherwise 0. -/
def freshnessLookup (pd : String → Option Int) (age : Int) :
    List FreshnessBonus → Int
  | [] => 0
  | fb :: rest =>
    match pd fb.MaxAge with
    | none => freshnessLookup pd age rest
    | some maxAge => if age ≤ maxAge then fb.Bonus else freshnessLookup pd age rest

/-- The definition `ScoringConfig.GetFreshnessBonus` (config.go). -/
def ScoringConfig.GetFreshnessBonus (s : ScoringConfig) (pd : String → Option Int)
    (age : Int) : Int :=
  freshnessLookup pd age s.FreshnessBonuses

/-- The definition `ScoringConfig.GetCIDRBonus` (config.go): bonus of the first range with
`min_prefix ≤ prefixLen ≤ max_prefix`, else 0. -/
def ScoringConfig.GetCIDRBonus (s : ScoringConfig) (prefixLen : Int) : Int :=
  ((s.CIDRBonuses.find? fun cb =>
      decide (cb.MinPrefixLen ≤ prefixLen) && decide (prefixLen ≤ cb.MaxPrefixLen)).map
    (·.Bonus)).getD 0

/-- The definition `ScoringConfig.GetScenarioMultiplier` (config.go): values ≤ 0 are
replaced by 2.0. -/
def ScoringConfig.GetScenarioMultiplier (s : ScoringConfig) : Float64Val :=
  if s.ScenarioMultiplier.isNonpos then { num := 2, den := 1 } else s.ScenarioMultiplier

/-- The definition `scorer.Scorer` (scorer.go). -/
structure Scorer where
  config : ScoringConfig

/-- The definition `Scorer.calculateTTLBonus` (scorer.go): `maxBonus` for durations ≥
`MaxTTL`, else linear scaling `int(duration/maxTTL * maxBonus)` (exact
fraction `duration*maxBonus / maxTTL`; this branch has
`0 < duration < maxTTL`). -/
def Scorer.calculateTTLBonus (s : Scorer) (duration : Int) : Int :=
  if duration ≤ 0 then 0
  else
    let maxTTL := s.config.TTLScoring.MaxTTL
    let maxBonus := s.config.TTLScoring.MaxBonus
    if maxTTL ≤ duration then maxBonus
    else Float64Val.truncToInt { num := duration * maxBonus, den := maxTTL }

/-- The definition `scorer.parsePrefixLen` (scorer.go): the prefix length of a CIDR value,
32 for single IPs or unparseable values. -/
def parsePrefixLen (env : Env) (value : String) : Int :=
  if strContains value '/' then
    match env.parseCIDRMaskOnes value with
    | some ones => ones
    | none => 32
  else 32

/-- The definition `Scorer.Score` (scorer.go): the six per-decision factors, accumulated
exactly as the Go function does. Recidivism is applied separately in
`ScoreAndSort`. -/
def Scorer.Score (s : Scorer) (env : Env) (d : Decision) : Int :=
  let score : Int := 0
  let scenarioBase := s.config.GetScenarioScore d.Scenario
  let multiplier := s.config.GetScenarioMultiplier
  let score := score + (multiplier.mulInt scenarioBase).truncToInt
  let score := score + s.config.GetOriginScore d.Origin
  let score :=
    if s.config.TTLScoring.Enabled && decide (0 < d.ParsedDuration) then
      score + s.calculateTTLBonus d.ParsedDuration
    else score
  let score := score + s.config.GetDecisionTypeScore d.Typ
  let score :=
    if d.ParsedCreated ≠ 0 then
      score + s.config.GetFreshnessBonus env.parseDuration (env.now - d.ParsedCreated)
    else score
  if d.Scope == "range" || strContains d.Value '/' then
    score + s.config.GetCIDRBonus (parsePrefixLen env d.Value)
  else if d.Scope == "ip" || d.Scope == "Ip" || d.Scope == "" then
    score + s.config.GetCIDRBonus 32
  else score

/-- The scoring loop of `Scorer.ScoreAndSort` (scorer.go): set each
decision's `Score` to `Score(d)` and, when the recidivism bonus is positive
and the decision's `value` occurs more than once in the pass, add
`RecidivismBonus * (count - 1)`. -/
def Scorer.scoreDecisions (s : Scorer) (env : Env) (decisions : List Decision) :
    List Decision :=
  decisions.map fun d =>
    let base := s.Score env d
    if 0 < s.config.RecidivismBonus then
      let count : Int := decisions.countP (fun e => e.Value == d.Value)
      if 1 < count then { d with Score := base + s.config.RecidivismBonus * (count - 1) }
      else { d with Score := base }
    else { d with Score := base }

/-- The comparator of `Scorer.ScoreAndSort` as a total `le`: the sort is
ascending in `le`, i.e. by score descending, ties by ascending `ID`. -/
def decLE (a b : Decision) : Bool :=
  decide (b.Score < a.Score) || (decide (a.Score = b.Score) && decide (a.ID ≤ b.ID))

/-- The definition `decLE` as a relation. -/
def decLEP (a b : Decision) : Prop :=
  decLE a b = true

instance : DecidableRel decLEP :=
  fun a b => instDecidableEqBool (decLE a b) true

/-- The definition `decLEP a b` spelled out on the fields. -/
theorem decLEP_iff (a b : Decision) :
    decLEP a b ↔ b.Score < a.Score ∨ (a.Score = b.Score ∧ a.ID ≤ b.ID) := by
  simp [decLEP, decLE]

instance : IsTotal Decision decLEP := by
  constructor
  intro a b
  rw [decLEP_iff, decLEP_iff]
  omega

instance : IsTrans Decision decLEP := by
  constructor
  intro a b c hab hbc
  rw [decLEP_iff] at hab hbc ⊢
  omega

/-- The definition `Scorer.ScoreAndSort` (scorer.go): score all decisions (with the
recidivism pre-pass) and sort by score descending, ties by ascending id.
Go's `sort.Slice` is an unstable comparison sort; the embedding uses a
deterministic sort, which agrees with every correct comparison sort
whenever the keys `(Score, ID)` are pairwise distinct (in particular
whenever ids are unique, as the upstream wire format guarantees). -/
def Scorer.ScoreAndSort (s : Scorer) (env : Env) (decisions : List Decision) :
    List Decision :=
  (s.scoreDecisions env decisions).insertionSort decLEP

/-- The definition `Scorer.ScoreAndTruncate` (scorer.go). `none` models the Go panic of
the slice expression `sorted[:maxDecisions]` when `maxDecisions < 0`. -/
def Scorer.ScoreAndTruncate (s : Scorer) (env : Env) (decisions : List Decision)
    (maxDecisions : Int) : Option (List Decision) :=
  let sorted := s.ScoreAndSort env decisions
  if (sorted.length : Int) ≤ maxDecisions then some sorted
  else if maxDecisions < 0 then none
  else some (sorted.take maxDecisions.toNat)

/-- The definition `scorer.ScoreBucketThresholds` (scorer.go). -/
def ScoreBucketThresholds : List Int := [25, 50, 75, 100, 150, 200]

/-- The definition `scorer.Stats` (scorer.go). Go count maps are association lists,
`DroppedIPs` is a duplicate-free list. -/
structure Stats where
  TotalDecisions : Int
  ReturnedDecisions : Int
  DroppedDecisions : Int
  MinScore : Int
  MaxScore : Int
  AvgScore : Float64Val
  ScoreDistribution : List (String × Int)
  OriginKept : List (String × Int)
  OriginDropped : List (String × Int)
  ScenarioKept : List (String × Int)
  ScenarioDropped : List (String × Int)
  MedianScore : Int
  ScoreCutoff : Int
  ScoreBuckets : List (Int × Int)
  RecidivismIPs : Int
  RecidivismBoosts : Int
  DroppedIPs : List String
deriving DecidableEq, Repr

/-- Go `m[k]++` on a counter map modelled as an association list. -/
def bumpCount {κ : Type} [BEq κ] (m : List (κ × Int)) (k : κ) : List (κ × Int) :=
  match m with
  | [] => [(k, 1)]
  | (k', v) :: rest => if k' == k then (k', v + 1) :: rest else (k', v) :: bumpCount rest k

/-- Go `set[k] = struct{}{}` on a set modelled as a duplicate-free list. -/
def insertKey (s : List String) (k : String) : List String :=
  if s.contains k then s else s ++ [k]

/-- The zero-valued `Stats` literal of `ScoreAndTruncateWithStats`, with
`TotalDecisions` preset to the input length. -/
def Stats.init (total : Int) : Stats :=
  { TotalDecisions := total, ReturnedDecisions := 0, DroppedDecisions := 0,
    MinScore := 0, MaxScore := 0, AvgScore := { num := 0, den := 1 },
    ScoreDistribution := [],
    OriginKept := [], OriginDropped := [], ScenarioKept := [], ScenarioDropped := [],
    MedianScore := 0, ScoreCutoff := 0, ScoreBuckets := [],
    RecidivismIPs := 0, RecidivismBoosts := 0, DroppedIPs := [] }

/-- The recidivism-statistics loop of `ScoreAndTruncateWithStats`
(scorer.go): iterate the per-value counts; values with a count > 1
contribute one `RecidivismIPs` and `bonus * (count-1) * count` boost
points. The Go loop ranges over the `ipCounts` map; the embedding iterates
the distinct values in first-occurrence order (only the resulting sums and
counts are observable). -/
def addRecidivismStats (s : Scorer) (sorted : List Decision) (st : Stats) : Stats :=
  if 0 < s.config.RecidivismBonus then
    ((sorted.map (·.Value)).dedup).foldl
      (fun st v =>
        let count : Int := sorted.countP (fun e => e.Value == v)
        if 1 < count then
          { st with
            RecidivismIPs := st.RecidivismIPs + 1
            RecidivismBoosts :=
              st.RecidivismBoosts + s.config.RecidivismBonus * (count - 1) * count }
        else st)
      st
  else st

/-- The single stats pass of `ScoreAndTruncateWithStats` (scorer.go) over
the sorted decisions: per-scenario distribution and cumulative score
buckets. -/
def addScoreDistribution (sorted : List Decision) (st : Stats) : Stats :=
  sorted.foldl
    (fun st d =>
      let st := { st with ScoreDistribution := bumpCount st.ScoreDistribution d.Scenario }
      let newBuckets := ScoreBucketThresholds.foldl
        (fun bs t => if d.Score ≤ t then bumpCount bs t else bs) st.ScoreBuckets
      { st with ScoreBuckets := newBuckets })
    st

/-- The kept-counts loop of `ScoreAndTruncateWithStats` (scorer.go). -/
def addKeptCounts (result : List Decision) (st : Stats) : Stats :=
  result.foldl
    (fun st d =>
      { st with
        OriginKept := bumpCount st.OriginKept d.Origin
        ScenarioKept := bumpCount st.ScenarioKept d.Scenario })
    st

/-- The dropped-counts loop of `ScoreAndTruncateWithStats` (scorer.go):
per-origin and per-scenario dropped tallies and the dropped-IP set. -/
def addDroppedCounts (droppedPart : List Decision) (st : Stats) : Stats :=
  droppedPart.foldl
    (fun st d =>
      { st with
        OriginDropped := bumpCount st.OriginDropped d.Origin
        ScenarioDropped := bumpCount st.ScenarioDropped d.Scenario
        DroppedIPs := insertKey st.DroppedIPs d.Value })
    st

/-- The definition `Scorer.ScoreAndTruncateWithStats` (scorer.go). `none` models the Go
panic of `sorted[:maxDecisions]` with a negative `maxDecisions` (reached
exactly when the input is non-empty, since then `len(sorted) >
maxDecisions`). -/
def Scorer.ScoreAndTruncateWithStats (s : Scorer) (env : Env)
    (decisions : List Decision) (maxDecisions : Int) :
    Option (List Decision × Stats) :=
  let stats0 := Stats.init (decisions.length : Int)
  if decisions.isEmpty then some (decisions, stats0)
  else
    let sorted := s.ScoreAndSort env decisions
    let stats1 := addRecidivismStats s sorted stats0
    let totalScore := (sorted.map (·.Score)).sum
    let stats2 := { stats1 with
      MaxScore := (sorted.head?.map Decision.Score).getD 0,
      MinScore := (sorted.getLast?.map Decision.Score).getD 0 }
    let stats3 := addScoreDistribution sorted stats2
    let stats4 := { stats3 with
      AvgScore := { num := totalScore, den := (sorted.length : Int) } }
    let mid := sorted.length / 2
    let stats5 := { stats4 with MedianScore :=
      if sorted.length % 2 == 0 then
        (((sorted[mid - 1]?.map Decision.Score).getD 0) +
          ((sorted[mid]?.map Decision.Score).getD 0)).tdiv 2
      else (sorted[mid]?.map Decision.Score).getD 0 }
    if (sorted.length : Int) ≤ maxDecisions then
      let result := sorted
      let stats6 := { stats5 with
        ReturnedDecisions := (result.length : Int),
        DroppedDecisions := stats5.TotalDecisions - (result.length : Int) }
      let stats7 := { stats6 with ScoreCutoff := (result.getLast?.map Decision.Score).getD 0 }
      some (result, addKeptCounts result stats7)
    else if maxDecisions < 0 then none
    else
      let result := sorted.take maxDecisions.toNat
      let stats6 := { stats5 with
        ReturnedDecisions := (result.length : Int),
        DroppedDecisions := stats5.TotalDecisions - (result.length : Int) }
      let stats7 := { stats6 with ScoreCutoff := (result.getLast?.map Decision.Score).getD 0 }
      let stats8 := addKeptCounts result stats7
      some (result, addDroppedCounts (sorted.drop maxDecisions.toNat) stats8)

/-- The scenario factor of `Scorer.Score`: `int(base * multiplier)`. -/
def scenarioFactor (s : Scorer) (d : Decision) : Int :=
  (s.config.GetScenarioMultiplier.mulInt (s.config.GetScenarioScore d.Scenario)).truncToInt

/-- The origin factor of `Scorer.Score`. -/
def originFactor (s : Scorer) (d : Decision) : Int :=
  s.config.GetOriginScore d.Origin

/-- The TTL factor of `Scorer.Score`: the TTL bonus when TTL scoring is
enabled and the parsed duration is positive, else 0. -/
def ttlFactor (s : Scorer) (d : Decision) : Int :=
  if s.config.TTLScoring.Enabled && decide (0 < d.ParsedDuration) then
    s.calculateTTLBonus d.ParsedDuration
  else 0

/-- The decision-type factor of `Scorer.Score`. -/
def decisionTypeFactor (s : Scorer) (d : Decision) : Int :=
  s.config.GetDecisionTypeScore d.Typ

/-- The freshness factor of `Scorer.Score`: the freshness bonus of the
decision's age when the parsed creation instant is non-zero, else 0. -/
def freshnessFactor (s : Scorer) (env : Env) (d : Decision) : Int :=
  if d.ParsedCreated ≠ 0 then
    s.config.GetFreshnessBonus env.parseDuration (env.now - d.ParsedCreated)
  else 0

/-- The CIDR factor of `Scorer.Score`: the branch structure of the last
conditional of `Score`. -/
def cidrFactor (s : Scorer) (env : Env) (d : Decision) : Int :=
  if d.Scope == "range" || strContains d.Value '/' then
    s.config.GetCIDRBonus (parsePrefixLen env d.Value)
  else if d.Scope == "ip" || d.Scope == "Ip" || d.Scope == "" then
    s.config.GetCIDRBonus 32
  else 0

/-- The recidivism factor actually applied by `scoreDecisions`: for `d` a
member of the pass, `RecidivismBonus * (count - 1)` when the bonus is
positive, else 0 (`count` being the number of decisions of the pass whose
`value` equals `d.Value`). -/
def recidivismFactor (s : Scorer) (decisions : List Decision) (d : Decision) : Int :=
  if 0 < s.config.RecidivismBonus then
    s.config.RecidivismBonus * ((decisions.countP (fun e => e.Value == d.Value) : Int) - 1)
  else 0

/-- Modelled from the spec (claim C1): the unconditional recidivism factor
`recidivism_bonus * (count - 1)` the claim asserts for every
configuration. -/
def specRecidivismFactor (s : Scorer) (decisions : List Decision) (d : Decision) : Int :=
  s.config.RecidivismBonus * ((decisions.countP (fun e => e.Value == d.Value) : Int) - 1)

/-- Modelled from the spec (claim C4): scenario-score resolution in which
the pattern step scans the `scenarios` mapping in insertion order —
(1) exact entry, (2) first full-anchored pattern matching in insertion
order, (3) the `"default"` entry, (4) 0. -/
def specScenarioScore (scenarios : List (String × Int))
    (compile : String → Option (String → Bool)) (scenario : String) : Int :=
  match scenarios.lookup scenario with
  | some v => v
  | none =>
    match scenarios.find? (fun kv =>
        !(kv.1 == "default") &&
          ((compile ("^" ++ kv.1 ++ "$")).map (fun re => re scenario)).getD false) with
    | some kv => kv.2
    | none => (scenarios.lookup "default").getD 0

/-- Modelled from the spec (claim C5): the CIDR factor the claim describes,
whose first branch is guarded by the value containing `/` alone (no
`scope == "range"` disjunct). -/
def specCIDRFactor (s : Scorer) (env : Env) (d : Decision) : Int :=
  if strContains d.Value '/' then
    s.config.GetCIDRBonus (parsePrefixLen env d.Value)
  else if d.Scope == "ip" || d.Scope == "Ip" || d.Scope == "" then
    s.config.GetCIDRBonus 32
  else 0

/-- The definition `lapi.Alert` (sidecar/internal/lapi/client.go), restricted to the
fields the auditor reads: `ID`, `Scenario`, `Source.Value`, `Source.IP`. -/
structure Alert where
  ID : Int
  Scenario : String
  SourceValue : String
  SourceIPStr : String
deriving DecidableEq, Repr

/-- The definition `lapi.DecisionStream` (sidecar/internal/lapi/client.go). -/
structure DecisionStream where
  New : List Decision
  Deleted : List Decision
deriving DecidableEq, Repr

/-- The mutable fields of `proxy.Handler` the embedded operations touch:
the cache slot (`cache`, `cacheTime`, `cacheStats`, `cacheHits`,
`cacheMisses`), the operational counters the decision endpoints update,
the dropped-IP snapshot, and the auditor's two atomics. The wall-clock
latency gauges (`upstreamLatency`, `lastUpstreamCall`) are pure
instrumentation and are outside the model. -/
structure HandlerState where
  cache : Option (List Decision)
  cacheTime : Int
  cacheStats : Stats
  cacheHits : Int
  cacheMisses : Int
  totalRequests : Int
  failedRequests : Int
  droppedIPs : List String
  falseNegativesTotal : Int
  falseNegativeLastCheck : Int
deriving DecidableEq, Repr

/-- Responses of `handleDecisions` / `handleDecisionsStream` as far as the
claims observe them: `http.Error` with status 502 and a plain-text reason,
the literal `null` body, or a JSON body. -/
inductive DecisionsResp where
  | badGateway (reason : String)
  | nullBody
  | okJSON (decisions : List Decision)
deriving DecidableEq, Repr

/-- Stream responses of `handleDecisionsStream`. -/
inductive StreamResp where
  | badGateway (reason : String)
  | okJSON (stream : DecisionStream)
deriving DecidableEq, Repr

/-- The definition `Handler.getCachedDecisions` (handler.go): return the cache when the
slot is non-nil and younger than `cache_ttl`, bumping `cacheHits`; a miss
changes nothing. -/
def getCachedDecisions (cfg : Config) (env : Env) (st : HandlerState) :
    HandlerState × Option (List Decision × Stats) :=
  match st.cache with
  | some cache =>
    if env.now - st.cacheTime < cfg.CacheTTL then
      ({ st with cacheHits := st.cacheHits + 1 }, some (cache, st.cacheStats))
    else (st, none)
  | none => (st, none)

/-- The definition `Handler.setCachedDecisions` (handler.go): store the scored result,
bump `cacheMisses`, and replace the dropped-IP snapshot. -/
def setCachedDecisions (env : Env) (st : HandlerState) (decisions : List Decision)
    (stats : Stats) : HandlerState :=
  { st with cache := some decisions, cacheTime := env.now, cacheStats := stats,
            cacheMisses := st.cacheMisses + 1, droppedIPs := stats.DroppedIPs }

/-- The definition `Handler.handleDecisions` (handler.go) for a GET request: cache lookup,
then on a miss the upstream fetch (whose outcome is the `upstream`
argument), scoring, cache store and reply; an upstream error bumps
`failedRequests` and answers 502 without touching the cache slot. `none`
models the scorer's truncation panic (negative `max_decisions`). -/
def handleDecisions (cfg : Config) (env : Env) (st : HandlerState)
    (upstream : Except String (List Decision)) :
    Option (HandlerState × DecisionsResp) :=
  let lookup := getCachedDecisions cfg env st
  let st1 := lookup.1
  match lookup.2 with
  | some (decisions, _) =>
    if decisions.isEmpty then some (st1, .nullBody) else some (st1, .okJSON decisions)
  | none =>
    match upstream with
    | .error _ =>
      some ({ st1 with failedRequests := st1.failedRequests + 1 },
            .badGateway "failed to fetch decisions from upstream")
    | .ok fetched =>
      match (Scorer.mk cfg.Scoring).ScoreAndTruncateWithStats env fetched cfg.MaxDecisions with
      | none => none
      | some (decisions, stats) =>
        let st2 := setCachedDecisions env st1 decisions stats
        if decisions.isEmpty then some (st2, .nullBody) else some (st2, .okJSON decisions)

/-- The definition `Handler.handleDecisionsStream` (handler.go) for a GET request: always
calls upstream; on success only a non-empty `new` slice is scored and
truncated (storing that pass's stats and dropped IPs), and `deleted` is
serialized untouched. -/
def handleDecisionsStream (cfg : Config) (env : Env) (st : HandlerState)
    (upstream : Except String DecisionStream) :
    Option (HandlerState × StreamResp) :=
  match upstream with
  | .error _ =>
    some ({ st with failedRequests := st.failedRequests + 1 },
          .badGateway "failed to fetch decisions from upstream")
  | .ok stream =>
    if stream.New.isEmpty then some (st, .okJSON stream)
    else
      match (Scorer.mk cfg.Scoring).ScoreAndTruncateWithStats env stream.New cfg.MaxDecisions with
      | none => none
      | some (newScored, stats) =>
        some ({ st with droppedIPs := stats.DroppedIPs, cacheStats := stats },
              .okJSON { New := newScored, Deleted := stream.Deleted })

/-- The alert loop of `runFalseNegativeCheck` (handler.go): take
`source.value`, fall back to `source.ip`, skip empty, and count hits
against the dropped-IP snapshot. -/
def countFalseNegatives (dropped : List String) (alerts : List Alert) : Int :=
  alerts.foldl
    (fun acc alert =>
      let ip := if alert.SourceValue == "" then alert.SourceIPStr else alert.SourceValue
      if ip == "" then acc
      else if dropped.contains ip then acc + 1 else acc)
    0

/-- The definition `Handler.runFalseNegativeCheck` (handler.go) as a state transition:
snapshot the dropped IPs; an empty snapshot only stores `last_check`; an
alert-fetch failure returns early, changing nothing; a successful fetch
adds the false-negative count and then stores `last_check`. -/
def runFalseNegativeCheck (st : HandlerState) (now : Int)
    (alertsFetch : Except String (List Alert)) : HandlerState :=
  let dropped := st.droppedIPs
  if dropped.isEmpty then { st with falseNegativeLastCheck := now }
  else
    match alertsFetch with
    | .error _ => st
    | .ok alerts =>
      let fnCount := countFalseNegatives dropped alerts
      let st1 :=
        if 0 < fnCount then
          { st with falseNegativesTotal := st.falseNegativesTotal + fnCount }
        else st
      { st1 with falseNegativeLastCheck := now }

/-! Concrete fixtures used by the counterexample and witness theorems. -/

/-- A fixed environment: instant 0, no string parses. -/
def env0 : Env :=
  { now := 0, parseDuration := fun _ => none, parseCIDRMaskOnes := fun _ => none }

/-- A scoring configuration in which every factor is 0: no scenario,
origin, type, freshness or CIDR entries, TTL scoring disabled, recidivism
bonus 0. -/
def zeroScoring : ScoringConfig :=
  { Scenarios := [], Origins := [],
    TTLScoring := { Enabled := false, MaxBonus := 0, MaxTTL := 0 },
    DecisionTypes := [], ScenarioMultiplier := { num := 2, den := 1 },
    FreshnessBonuses := [], CIDRBonuses := [], RecidivismBonus := 0,
    compiledScenarios := [] }

/-- A ban decision on a single IP with the given id, origin and value, no
parsed duration or creation instant. -/
def mkD (id : Int) (origin value : String) : Decision :=
  { ID := id, Origin := origin, Typ := "ban", Scope := "", Value := value, Duration := "",
    Scenario := "x", Simulated := false, ParsedDuration := 0, ParsedCreated := 0, Score := 0 }

/-- Scorer for the C1 counterexample: a negative recidivism bonus. -/
def sNeg : Scorer :=
  ⟨{ zeroScoring with RecidivismBonus := -5 }⟩

/-- Two decisions sharing the value `"V"`. -/
def dsC1 : List Decision := [mkD 1 "" "V", mkD 2 "" "V"]

/-- Scorer for the C3 counterexample: recidivism bonus 15 and two origin
scores. -/
def sC3 : Scorer :=
  ⟨{ zeroScoring with
     Origins := [("a1", 25), ("x", 30)]
     RecidivismBonus := 15 }⟩

/-- Three decisions: two share the value `"V"` (origins `"a1"` and none),
one has value `"W"` and origin `"x"`. -/
def dsC3 : List Decision := [mkD 1 "a1" "V", mkD 2 "" "V", mkD 3 "x" "W"]

/-- The decisions returned by the first `ScoreAndTruncate` application of
the C3 counterexample. -/
def firstOutC3 : List Decision := (sC3.ScoreAndTruncate env0 dsC3 2).getD []

/-- The scenarios map of the C4 counterexample, in insertion (document)
order: two patterns that both match `"web-attack"`. -/
def mC4 : List (String × Int) := [("web-.*", 10), (".*-attack", 20)]

/-- A concrete regex-compile oracle for `mC4`: `^web-.*$` matches strings
starting with `web-`, `^.*-attack$` matches strings ending in `-attack`,
as Go's `regexp` does. -/
def compileC4 : String → Option (String → Bool) := fun p =>
  if p == "^web-.*$" then some (fun str => str.data.take 4 == "web-".data)
  else if p == "^.*-attack$" then some (fun str => str.data.reverse.take 7 == "kcatta-".data)
  else none

/-- The C4 configuration whose compiled patterns were built from the
reversed enumeration of `mC4` — a permutation of the map entries, hence a
possible Go map iteration order. -/
def cfgC4 : ScoringConfig :=
  { zeroScoring with
    Scenarios := mC4
    compiledScenarios := ((compilePatterns compileC4 mC4.reverse).toOption).getD [] }

/-- Scorer for the C5 counterexample: a single CIDR range `[25, 32]` worth
7 points. -/
def sC5 : Scorer :=
  ⟨{ zeroScoring with CIDRBonuses := [⟨25, 32, 7⟩] }⟩

/-- A decision with scope `"range"` whose value contains no `/`. -/
def dC5 : Decision :=
  let base := mkD 9 "" "1.2.3.4"
  { base with Scope := "range" }

/-- A handler state with one dropped IP and zeroed counters. -/
def stC6 : HandlerState :=
  { cache := none, cacheTime := 0, cacheStats := Stats.init 0, cacheHits := 0, cacheMisses := 0,
    totalRequests := 0, failedRequests := 0, droppedIPs := ["1.2.3.4"],
    falseNegativesTotal := 0, falseNegativeLastCheck := 0 }

/-- A plain configuration around `zeroScoring` used by the handler
witnesses. -/
def cfgW : Config :=
  { ListenAddr := "127.0.0.1:8081", UpstreamLAPIURL := "http://lapi", UpstreamLAPIKey := "k",
    MaxDecisions := 2, CacheTTL := 60, UpstreamTimeout := 120, LogLevel := "info",
    Scoring := zeroScoring, Health := { Enabled := true, Path := "/health" },
    Metrics := { Enabled := true, Path := "/metrics" } }

/-- A single-decision input for the idempotence witness. -/
def dsW1 : List Decision := [mkD 1 "a1" "V"]

/-- The output of the first truncation pass over `dsW1`. -/
def rW1 : List Decision := (sC3.ScoreAndTruncate env0 dsW1 5).getD []

/-- A stream with an empty `new` slice and one deleted decision. -/
def streamW : DecisionStream := { New := [], Deleted := [mkD 7 "" "9.9.9.9"] }

/-- A compile oracle that rejects every pattern. -/
def compileNone : String → Option (String → Bool) := fun _ => none

/-- A configuration whose scenarios map holds one non-`"default"` pattern
(so any rejecting compiler fails `loadChecks` on it). -/
def cfgBad : Config :=
  { cfgW with Scoring := { zeroScoring with Scenarios := [("(", 1)] } }


/-! Helper lemmas. -/

/-- The definition `Score` never reads the stored `Score` field. -/
theorem Score_setScore (s : Scorer) (env : Env) (d : Decision) (x : Int) :
    s.Score env { d with Score := x } = s.Score env d := rfl

/-- The definition `Score` is the sum of the six per-decision factors. -/
theorem Score_eq_factors (s : Scorer) (env : Env) (d : Decision) :
    s.Score env d =
      scenarioFactor s d + originFactor s d + ttlFactor s d + decisionTypeFactor s d +
        freshnessFactor s env d + cidrFactor s env d := by
  simp only [Scorer.Score, scenarioFactor, originFactor, ttlFactor, decisionTypeFactor,
    freshnessFactor, cidrFactor]
  split_ifs <;> ring

/-- The scoring loop maps each decision to itself with `Score` replaced by
the six-factor score plus the recidivism factor. -/
theorem scoreDecisions_eq_map (s : Scorer) (env : Env) (ds : List Decision) :
    s.scoreDecisions env ds =
      ds.map (fun d => { d with Score := s.Score env d + recidivismFactor s ds d }) := by
  unfold Scorer.scoreDecisions
  apply List.map_congr_left
  intro d hd
  have hpos : 0 < ds.countP (fun e => e.Value == d.Value) :=
    List.countP_pos_iff.mpr ⟨d, hd, by simp⟩
  by_cases hb : 0 < s.config.RecidivismBonus
  · by_cases hc : 1 < (ds.countP (fun e => e.Value == d.Value) : Int)
    · simp [recidivismFactor, hb, hc]
    · have h1 : (ds.countP (fun e => e.Value == d.Value) : Int) = 1 := by omega
      simp [recidivismFactor, hb, hc, h1]
  · simp [recidivismFactor, hb]

/-- Scoring keeps every field but `Score`; in particular the values. -/
theorem scoreDecisions_map_value (s : Scorer) (env : Env) (ds : List Decision) :
    (s.scoreDecisions env ds).map Decision.Value = ds.map Decision.Value := by
  rw [scoreDecisions_eq_map, List.map_map]
  rfl

/-- Scoring keeps the ids. -/
theorem scoreDecisions_map_id (s : Scorer) (env : Env) (ds : List Decision) :
    (s.scoreDecisions env ds).map Decision.ID = ds.map Decision.ID := by
  rw [scoreDecisions_eq_map, List.map_map]
  rfl

/-- Scoring keeps the length. -/
theorem scoreDecisions_length (s : Scorer) (env : Env) (ds : List Decision) :
    (s.scoreDecisions env ds).length = ds.length := by
  rw [scoreDecisions_eq_map, List.length_map]

/-- The sorted output is a permutation of the scored input. -/
theorem ScoreAndSort_perm (s : Scorer) (env : Env) (ds : List Decision) :
    (s.ScoreAndSort env ds).Perm (s.scoreDecisions env ds) :=
  List.perm_insertionSort decLEP (s.scoreDecisions env ds)

/-- The sorted output is sorted by score descending, ties by ascending id. -/
theorem ScoreAndSort_sorted (s : Scorer) (env : Env) (ds : List Decision) :
    (s.ScoreAndSort env ds).Sorted decLEP :=
  List.sorted_insertionSort decLEP (s.scoreDecisions env ds)

/-- Sorting keeps the length. -/
theorem ScoreAndSort_length (s : Scorer) (env : Env) (ds : List Decision) :
    (s.ScoreAndSort env ds).length = ds.length := by
  rw [(ScoreAndSort_perm s env ds).length_eq, scoreDecisions_length]

/-- A fold whose step preserves a projection preserves it overall. -/
theorem foldl_preserves {α σ : Type} (f : σ → α → σ) (proj : σ → Int)
    (hf : ∀ st a, proj (f st a) = proj st) :
    ∀ (l : List α) (st : σ), proj (l.foldl f st) = proj st := by
  intro l
  induction l with
  | nil => intro st; rfl
  | cons a l ih => intro st; rw [List.foldl_cons, ih, hf]

/-- The recidivism-statistics loop does not change the totals. -/
theorem addRecidivismStats_counts (s : Scorer) (sorted : List Decision) (st : Stats) :
    (addRecidivismStats s sorted st).TotalDecisions = st.TotalDecisions ∧
    (addRecidivismStats s sorted st).ReturnedDecisions = st.ReturnedDecisions ∧
    (addRecidivismStats s sorted st).DroppedDecisions = st.DroppedDecisions := by
  unfold addRecidivismStats
  split
  · refine ⟨?_, ?_, ?_⟩ <;>
      (apply foldl_preserves
       intro st v
       dsimp only
       split <;> rfl)
  · exact ⟨rfl, rfl, rfl⟩

/-- The distribution loop does not change the totals. -/
theorem addScoreDistribution_counts (sorted : List Decision) (st : Stats) :
    (addScoreDistribution sorted st).TotalDecisions = st.TotalDecisions ∧
    (addScoreDistribution sorted st).ReturnedDecisions = st.ReturnedDecisions ∧
    (addScoreDistribution sorted st).DroppedDecisions = st.DroppedDecisions := by
  unfold addScoreDistribution
  refine ⟨?_, ?_, ?_⟩ <;> (apply foldl_preserves; intro st d; rfl)

/-- The kept-counts loop does not change the totals. -/
theorem addKeptCounts_counts (l : List Decision) (st : Stats) :
    (addKeptCounts l st).TotalDecisions = st.TotalDecisions ∧
    (addKeptCounts l st).ReturnedDecisions = st.ReturnedDecisions ∧
    (addKeptCounts l st).DroppedDecisions = st.DroppedDecisions := by
  unfold addKeptCounts
  refine ⟨?_, ?_, ?_⟩ <;> (apply foldl_preserves; intro st d; rfl)

/-- The dropped-counts loop does not change the totals. -/
theorem addDroppedCounts_counts (l : List Decision) (st : Stats) :
    (addDroppedCounts l st).TotalDecisions = st.TotalDecisions ∧
    (addDroppedCounts l st).ReturnedDecisions = st.ReturnedDecisions ∧
    (addDroppedCounts l st).DroppedDecisions = st.DroppedDecisions := by
  unfold addDroppedCounts
  refine ⟨?_, ?_, ?_⟩ <;> (apply foldl_preserves; intro st d; rfl)

/-- Characterization of `ScoreAndTruncateWithStats` for a non-negative
limit: it succeeds, returns the first `maxN` sorted decisions, and its
stats carry the truncation counts. -/
theorem withStats_eq (s : Scorer) (env : Env) (ds : List Decision) (maxN : Int)
    (h : 0 ≤ maxN) :
    ∃ stats,
      s.ScoreAndTruncateWithStats env ds maxN =
        some ((s.ScoreAndSort env ds).take maxN.toNat, stats) ∧
      stats.TotalDecisions = (ds.length : Int) ∧
      stats.ReturnedDecisions = min maxN (ds.length : Int) ∧
      stats.DroppedDecisions = (ds.length : Int) - min maxN (ds.length : Int) := by
  by_cases hE : ds.isEmpty
  · have hnil : ds = [] := List.isEmpty_iff.mp hE
    subst hnil
    refine ⟨Stats.init 0, ?_, by simp [Stats.init], ?_, ?_⟩
    · unfold Scorer.ScoreAndTruncateWithStats
      simp [Scorer.ScoreAndSort, Scorer.scoreDecisions, Stats.init]
    · simp [Stats.init]
      omega
    · simp [Stats.init]
      omega
  · have hlen := ScoreAndSort_length s env ds
    unfold Scorer.ScoreAndTruncateWithStats
    rw [if_neg hE]
    simp only []
    by_cases hle : ((s.ScoreAndSort env ds).length : Int) ≤ maxN
    · rw [if_pos hle]
      have htake : (s.ScoreAndSort env ds).take maxN.toNat = s.ScoreAndSort env ds :=
        List.take_of_length_le (by omega)
      rw [htake]
      refine ⟨_, rfl, ?_, ?_, ?_⟩ <;>
        simp [addKeptCounts_counts, addScoreDistribution_counts, addRecidivismStats_counts,
          Stats.init] <;>
        omega
    · rw [if_neg hle, if_neg (by omega : ¬ maxN < 0)]
      refine ⟨_, rfl, ?_, ?_, ?_⟩ <;>
        simp [addDroppedCounts_counts, addKeptCounts_counts, addScoreDistribution_counts,
          addRecidivismStats_counts, Stats.init, List.length_take] <;>
        omega

/-- The definition `ScoreAndTruncate` with a non-negative limit returns the first `maxN`
sorted decisions. -/
theorem scoreAndTruncate_eq (s : Scorer) (env : Env) (ds : List Decision) (maxN : Int)
    (h : 0 ≤ maxN) :
    s.ScoreAndTruncate env ds maxN = some ((s.ScoreAndSort env ds).take maxN.toNat) := by
  unfold Scorer.ScoreAndTruncate
  by_cases hle : ((s.ScoreAndSort env ds).length : Int) ≤ maxN
  · rw [if_pos hle, List.take_of_length_le (by omega)]
  · rw [if_neg hle, if_neg (by omega)]

/-- The definition `ScoreAndTruncate` with a negative limit always hits the slicing
panic. -/
theorem scoreAndTruncate_neg (s : Scorer) (env : Env) (ds : List Decision) (maxN : Int)
    (hneg : maxN < 0) :
    s.ScoreAndTruncate env ds maxN = none := by
  unfold Scorer.ScoreAndTruncate
  have h0 : (0 : Int) ≤ ((s.ScoreAndSort env ds).length : Int) := Int.natCast_nonneg _
  rw [if_neg (by omega), if_pos hneg]

/-- The definition `ScoreAndTruncateWithStats` with a negative limit hits the slicing
panic on every non-empty input. -/
theorem withStats_neg (s : Scorer) (env : Env) (ds : List Decision) (maxN : Int)
    (hneg : maxN < 0) (hne : ds ≠ []) :
    s.ScoreAndTruncateWithStats env ds maxN = none := by
  unfold Scorer.ScoreAndTruncateWithStats
  rw [if_neg (by simp [hne])]
  simp only []
  have h0 : (0 : Int) ≤ ((s.ScoreAndSort env ds).length : Int) := Int.natCast_nonneg _
  rw [if_neg (by omega), if_pos hneg]

/-- Two sorted permutations of the same decisions with duplicate-free ids
are equal: the sort order is deterministic when ids are unique. -/
theorem sorted_perm_eq_of_nodup_id :
    ∀ {l₁ l₂ : List Decision}, l₁.Perm l₂ → l₁.Sorted decLEP → l₂.Sorted decLEP →
      (l₂.map Decision.ID).Nodup → l₁ = l₂ := by
  intro l₁
  induction l₁ with
  | nil =>
    intro l₂ hp _ _ _
    exact (hp.nil_eq).symm ▸ rfl
  | cons a t₁ ih =>
    intro l₂ hp hs₁ hs₂ hnz
    cases l₂ with
    | nil => exact absurd hp.symm.nil_eq (by simp)
    | cons b t₂ =>
      have hab : a = b := by
        by_contra hne
        have ha₂ : a ∈ t₂ := by
          have := hp.mem_iff.mp (List.mem_cons_self a t₁)
          simpa [hne] using this
        have hb₁ : b ∈ t₁ := by
          have := hp.symm.mem_iff.mp (List.mem_cons_self b t₂)
          simpa [Ne.symm hne] using this
        have h₁ : decLEP a b := (List.sorted_cons.mp hs₁).1 b hb₁
        have h₂ : decLEP b a := (List.sorted_cons.mp hs₂).1 a ha₂
        rw [decLEP_iff] at h₁ h₂
        have hid : a.ID = b.ID := by omega
        have : b.ID ∉ t₂.map Decision.ID := (List.nodup_cons.mp hnz).1
        exact this (hid ▸ List.mem_map_of_mem Decision.ID ha₂)
      subst hab
      have ht : t₁ = t₂ :=
        ih hp.cons_inv (List.sorted_cons.mp hs₁).2 (List.sorted_cons.mp hs₂).2
          (List.nodup_cons.mp hnz).2
      rw [ht]

/-- When no two decisions share a value, each per-value group in the pass
has exactly one member. -/
theorem countP_value_eq_one {ds : List Decision} (hv : (ds.map Decision.Value).Nodup)
    {d : Decision} (hd : d ∈ ds) :
    ds.countP (fun e => e.Value == d.Value) = 1 := by
  have h1 : ds.countP (fun e => e.Value == d.Value) = (ds.map Decision.Value).count d.Value := by
    rw [List.count, List.countP_map]
    rfl
  rw [h1]
  exact List.count_eq_one_of_mem hv (List.mem_map_of_mem Decision.Value hd)

/-- Re-applying the scoring loop to any sublist of a sorted pass output is
the identity, provided no two input decisions share a value. -/
theorem scoreDecisions_of_sorted_sublist (s : Scorer) (env : Env) {ds r : List Decision}
    (hv : (ds.map Decision.Value).Nodup) (hr : r.Sublist (s.ScoreAndSort env ds)) :
    s.scoreDecisions env r = r := by
  have hvs : ((s.ScoreAndSort env ds).map Decision.Value).Nodup := by
    have hperm := (ScoreAndSort_perm s env ds).map Decision.Value
    rw [scoreDecisions_map_value] at hperm
    exact hperm.nodup_iff.mpr hv
  have hvr : (r.map Decision.Value).Nodup := (hr.map Decision.Value).nodup hvs
  rw [scoreDecisions_eq_map]
  have hid : ∀ d ∈ r, ({ d with Score := s.Score env d + recidivismFactor s r d }) = d := by
    intro d hd
    have hds : d ∈ s.scoreDecisions env ds :=
      (ScoreAndSort_perm s env ds).mem_iff.mp (hr.subset hd)
    rw [scoreDecisions_eq_map] at hds
    obtain ⟨d₀, hd₀, rfl⟩ := List.mem_map.mp hds
    have hc₀ : ds.countP (fun e => e.Value == d₀.Value) = 1 := countP_value_eq_one hv hd₀
    have h₀ : recidivismFactor s ds d₀ = 0 := by
      unfold recidivismFactor
      split
      · rw [hc₀]
        simp
      · rfl
    have hcr : r.countP
        (fun e => e.Value == ({ d₀ with Score := s.Score env d₀ + recidivismFactor s ds d₀ } :
          Decision).Value) = 1 :=
      countP_value_eq_one hvr hd
    have hrf : recidivismFactor s r
        { d₀ with Score := s.Score env d₀ + recidivismFactor s ds d₀ } = 0 := by
      unfold recidivismFactor
      split
      · rw [hcr]
        simp
      · rfl
    rw [hrf, add_zero, h₀, add_zero]
    exact congrArg (fun sc => ({ d₀ with Score := sc } : Decision))
      (Score_setScore s env d₀ (s.Score env d₀))
  calc r.map (fun d => { d with Score := s.Score env d + recidivismFactor s r d })
      = r.map id := List.map_congr_left hid
    _ = r := List.map_id r

/-- Skipping unparseable tiers is filtering them out. -/
theorem freshnessLookup_filter (pd : String → Option Int) (age : Int) :
    ∀ tiers : List FreshnessBonus,
      freshnessLookup pd age tiers =
        freshnessLookup pd age (tiers.filter (fun fb => (pd fb.MaxAge).isSome)) := by
  intro tiers
  induction tiers with
  | nil => rfl
  | cons fb rest ih =>
    cases hfb : pd fb.MaxAge with
    | none =>
      rw [List.filter_cons, if_neg (by simp [hfb])]
      simp only [freshnessLookup, hfb]
      exact ih
    | some m =>
      rw [List.filter_cons, if_pos (by simp [hfb])]
      simp only [freshnessLookup, hfb]
      split
      · rfl
      · exact ih

/-- When no parseable tier covers the age, the freshness lookup is 0. -/
theorem freshnessLookup_eq_zero (pd : String → Option Int) (age : Int) :
    ∀ tiers : List FreshnessBonus,
      (∀ fb ∈ tiers, ∀ m, pd fb.MaxAge = some m → ¬ age ≤ m) →
      freshnessLookup pd age tiers = 0 := by
  intro tiers
  induction tiers with
  | nil => intro _; rfl
  | cons fb rest ih =>
    intro h
    cases hfb : pd fb.MaxAge with
    | none =>
      simp only [freshnessLookup, hfb]
      exact ih fun g hg => h g (List.mem_cons_of_mem fb hg)
    | some m =>
      simp only [freshnessLookup, hfb]
      rw [if_neg (h fb (List.mem_cons_self fb rest) m hfb)]
      exact ih fun g hg => h g (List.mem_cons_of_mem fb hg)

/-- On success, `compilePatterns` compiles exactly the non-`"default"`
entries of its enumeration, in enumeration order. -/
theorem compilePatterns_ok_map (compile : String → Option (String → Bool)) :
    ∀ (enum : List (String × Int)) (l : List ScenarioPattern),
      compilePatterns compile enum = .ok l →
      l.map (fun sp => (sp.raw, sp.score)) = enum.filter (fun kv => !(kv.1 == "default")) := by
  intro enum
  induction enum with
  | nil =>
    intro l h
    rw [compilePatterns] at h
    cases h
    rfl
  | cons hd tl ih =>
    intro l h
    obtain ⟨q, w⟩ := hd
    rw [compilePatterns] at h
    by_cases hq : (q == "default") = true
    · rw [if_pos hq] at h
      rw [List.filter_cons, if_neg (by simp_all), ← ih l h]
    · rw [if_neg hq] at h
      cases hc : compile ("^" ++ q ++ "$") with
      | none => rw [hc] at h; cases h
      | some re =>
        rw [hc] at h
        cases ht : compilePatterns compile tl with
        | error e => rw [ht] at h; cases h
        | ok tail =>
          rw [ht] at h
          cases h
          rw [List.filter_cons, if_pos (by simp_all), List.map_cons, ih tail ht]

/-- A non-`"default"` entry whose pattern the compiler rejects makes
`compilePatterns` fail. -/
theorem compilePatterns_error_of_bad (compile : String → Option (String → Bool)) :
    ∀ (enum : List (String × Int)) (p : String) (v : Int),
      (p, v) ∈ enum → ¬ p = "default" → compile ("^" ++ p ++ "$") = none →
      ∃ e, compilePatterns compile enum = .error e := by
  intro enum
  induction enum with
  | nil => intro p v hmem; cases hmem
  | cons hd tl ih =>
    intro p v hmem hp hc
    obtain ⟨q, w⟩ := hd
    rw [compilePatterns]
    by_cases hq : (q == "default") = true
    · rw [if_pos hq]
      rcases List.mem_cons.mp hmem with heq | hmem'
      · cases heq
        exact absurd (by simpa using hq) hp
      · exact ih p v hmem' hp hc
    · rw [if_neg hq]
      cases hcq : compile ("^" ++ q ++ "$") with
      | none => exact ⟨q, rfl⟩
      | some re =>
        rcases List.mem_cons.mp hmem with heq | hmem'
        · cases heq
          rw [hc] at hcq
          cases hcq
        · obtain ⟨e, he⟩ := ih p v hmem' hp hc
          rw [he]
          exact ⟨e, rfl⟩

/-! Claim theorems. -/

/-- C1 (counterexample): with a negative `recidivism_bonus` (-5) and two
decisions sharing the value `"V"`, the claim's unconditional recidivism
factor `recidivism_bonus * (count - 1)` predicts score -5 for each, but
the code adds no recidivism at all (scores are 0): the claim fails as
stated for that configuration. -/
theorem score_seven_factors_cex :
    ¬ ((sNeg.scoreDecisions env0 dsC1).map Decision.Score =
        dsC1.map (fun d =>
          scenarioFactor sNeg d + originFactor sNeg d + ttlFactor sNeg d +
            decisionTypeFactor sNeg d + freshnessFactor sNeg env0 d + cidrFactor sNeg env0 d +
            specRecidivismFactor sNeg dsC1 d)) := by decide

/-- C1 (amended): in a single scoring pass, every decision's computed
score is the sum of exactly seven factors — scenario, origin, TTL,
decision type, freshness, CIDR (each a function of the decision, the
configuration and the pass environment only) and recidivism, which equals
`recidivism_bonus * (count - 1)` when the bonus is positive and 0
otherwise, `count` being the number of decisions of the pass sharing the
decision's value; the sorted pass output is a permutation of these scored
decisions. -/
theorem score_is_sum_of_seven_factors (s : Scorer) (env : Env) (ds : List Decision) :
    s.scoreDecisions env ds =
      ds.map (fun d =>
        { d with Score :=
            scenarioFactor s d + originFactor s d + ttlFactor s d + decisionTypeFactor s d +
              freshnessFactor s env d + cidrFactor s env d + recidivismFactor s ds d }) ∧
    (s.ScoreAndSort env ds).Perm (s.scoreDecisions env ds) := by
  constructor
  · rw [scoreDecisions_eq_map]
    apply List.map_congr_left
    intro d _
    rw [Score_eq_factors]
  · exact ScoreAndSort_perm s env ds

/-- C2: every scoring pass with a non-negative limit returns the first
`min(max_decisions, |input|)` elements of the scored input sorted by score
descending with ties broken by ascending id; that ordering is the unique
sorted arrangement when ids are unique within the pass; and the stats
satisfy `returned = min(max_decisions, total)` and
`dropped + returned = total`. -/
theorem scoring_pass_sorted_truncation (s : Scorer) (env : Env) (ds : List Decision)
    (maxN : Int) (h : 0 ≤ maxN) :
    ∃ result stats,
      s.ScoreAndTruncateWithStats env ds maxN = some (result, stats) ∧
      result = (s.ScoreAndSort env ds).take maxN.toNat ∧
      (s.ScoreAndSort env ds).Sorted decLEP ∧
      (s.ScoreAndSort env ds).Perm (s.scoreDecisions env ds) ∧
      ((ds.map Decision.ID).Nodup →
        ∀ l, l.Perm (s.scoreDecisions env ds) → l.Sorted decLEP →
          l = s.ScoreAndSort env ds) ∧
      stats.ReturnedDecisions = min maxN (ds.length : Int) ∧
      stats.DroppedDecisions + stats.ReturnedDecisions = stats.TotalDecisions ∧
      stats.TotalDecisions = (ds.length : Int) := by
  obtain ⟨stats, heq, hT, hR, hD⟩ := withStats_eq s env ds maxN h
  refine ⟨_, stats, heq, rfl, ScoreAndSort_sorted s env ds, ScoreAndSort_perm s env ds,
    ?_, hR, by omega, hT⟩
  intro hnodup l hl hsl
  have hids : ((s.ScoreAndSort env ds).map Decision.ID).Nodup := by
    have hperm := (ScoreAndSort_perm s env ds).map Decision.ID
    rw [scoreDecisions_map_id] at hperm
    exact hperm.nodup_iff.mpr hnodup
  exact sorted_perm_eq_of_nodup_id (hl.trans (ScoreAndSort_perm s env ds).symm) hsl
    (ScoreAndSort_sorted s env ds) hids

/-- C2 (witness): a concrete pass of three decisions with limit 2 returns
two decisions with the stats equations satisfied. -/
theorem scoring_pass_sorted_truncation_witness :
    ∃ result stats,
      sC3.ScoreAndTruncateWithStats env0 dsC3 2 = some (result, stats) ∧
      stats.ReturnedDecisions = 2 ∧ stats.DroppedDecisions = 1 := by
  obtain ⟨result, stats, heq, -, -, -, -, hR, hsum, hT⟩ :=
    scoring_pass_sorted_truncation sC3 env0 dsC3 2 (by decide)
  have h3 : (dsC3.length : Int) = 3 := by decide
  rw [h3] at hR hT
  refine ⟨result, stats, heq, by rw [hR]; decide, by omega⟩

/-- C3 (counterexample): with recidivism bonus 15, origins `a1 = 25`,
`x = 30`, and decisions `[(id 1, "V", a1), (id 2, "V", -), (id 3, "W", x)]`,
the first `ScoreAndTruncate` with limit 2 keeps ids `[1, 3]` (scores 40,
30); re-applying `ScoreAndTruncate` with the same limit 2 ≥ 2 returned
re-scores id 1 to 25 (its group shrank) and returns ids `[3, 1]`: the
second application does not reproduce the first. -/
theorem scoreAndTruncate_idempotent_cex :
    sC3.ScoreAndTruncate env0 dsC3 2 = some firstOutC3 ∧
    firstOutC3.length = 2 ∧
    sC3.ScoreAndTruncate env0 firstOutC3 2 ≠ some firstOutC3 := by decide

/-- C3 (amended): score-and-truncate is idempotent — the second
application with `max_n` at least the first call's returned count yields
the first call's output unchanged — provided no two decisions of the
input share a value (so that truncation cannot shrink a recidivism group)
and ids are unique (the upstream data-model invariant, making the sort
order deterministic). -/
theorem scoreAndTruncate_idempotent (s : Scorer) (env : Env) (ds : List Decision)
    (max1 max2 : Int) (r : List Decision)
    (hv : (ds.map Decision.Value).Nodup) (hi : (ds.map Decision.ID).Nodup)
    (h1 : s.ScoreAndTruncate env ds max1 = some r)
    (h2 : (r.length : Int) ≤ max2) :
    s.ScoreAndTruncate env r max2 = some r := by
  have hrsub : r.Sublist (s.ScoreAndSort env ds) := by
    unfold Scorer.ScoreAndTruncate at h1
    by_cases hc1 : ((s.ScoreAndSort env ds).length : Int) ≤ max1
    · rw [if_pos hc1] at h1
      have hr := Option.some.inj h1
      subst hr
      exact List.Sublist.refl _
    · rw [if_neg hc1] at h1
      by_cases hc2 : max1 < 0
      · rw [if_pos hc2] at h1
        cases h1
      · rw [if_neg hc2] at h1
        have hr := Option.some.inj h1
        subst hr
        exact List.take_sublist _ _
  have hsorted : r.Sorted decLEP := (ScoreAndSort_sorted s env ds).sublist hrsub
  have hsorteq : s.ScoreAndSort env r = r := by
    unfold Scorer.ScoreAndSort
    rw [scoreDecisions_of_sorted_sublist s env hv hrsub]
    exact List.Sorted.insertionSort_eq hsorted
  unfold Scorer.ScoreAndTruncate
  rw [hsorteq, if_pos h2]

/-- C3 (witness): a single-decision pass truncated at 5 then re-truncated
at 1 reproduces itself. -/
theorem scoreAndTruncate_idempotent_witness :
    ((dsW1.map Decision.Value).Nodup ∧ (dsW1.map Decision.ID).Nodup ∧
      sC3.ScoreAndTruncate env0 dsW1 5 = some rW1 ∧ ((rW1.length : Int) ≤ 1)) ∧
    sC3.ScoreAndTruncate env0 rW1 1 = some rW1 :=
  ⟨⟨by decide, by decide, by decide, by decide⟩,
    scoreAndTruncate_idempotent sC3 env0 dsW1 5 1 rW1 (by decide) (by decide) (by decide)
      (by decide)⟩

/-- C9: with a non-negative limit both truncation entry points succeed on
every input and return `min(maxDecisions, |input|)` decisions (limit 0
returns the empty sequence with everything counted as dropped), while a
negative limit makes both hit the out-of-range slice on every non-empty
input (and `ScoreAndTruncate` even on the empty one). -/
theorem truncation_total_iff_nonneg (s : Scorer) (env : Env) :
    (∀ (ds : List Decision) (maxN : Int), 0 ≤ maxN →
      ∃ r, s.ScoreAndTruncate env ds maxN = some r ∧
        (r.length : Int) = min maxN (ds.length : Int)) ∧
    (∀ (ds : List Decision) (maxN : Int), 0 ≤ maxN →
      ∃ r stats, s.ScoreAndTruncateWithStats env ds maxN = some (r, stats) ∧
        (r.length : Int) = min maxN (ds.length : Int) ∧
        (maxN = 0 → r = [] ∧ stats.DroppedDecisions = stats.TotalDecisions)) ∧
    (∀ (ds : List Decision) (maxN : Int), maxN < 0 → ds ≠ [] →
      s.ScoreAndTruncate env ds maxN = none ∧
      s.ScoreAndTruncateWithStats env ds maxN = none) ∧
    (∀ (ds : List Decision) (maxN : Int), maxN < 0 →
      s.ScoreAndTruncate env ds maxN = none) := by
  have hlen : ∀ (ds : List Decision) (maxN : Int), 0 ≤ maxN →
      (((s.ScoreAndSort env ds).take maxN.toNat).length : Int) = min maxN (ds.length : Int) := by
    intro ds maxN h
    rw [List.length_take, ScoreAndSort_length]
    omega
  refine ⟨?_, ?_, ?_, ?_⟩
  · intro ds maxN h
    exact ⟨_, scoreAndTruncate_eq s env ds maxN h, hlen ds maxN h⟩
  · intro ds maxN h
    obtain ⟨stats, heq, hT, hR, hD⟩ := withStats_eq s env ds maxN h
    refine ⟨_, stats, heq, hlen ds maxN h, ?_⟩
    rintro rfl
    constructor
    · simp
    · omega
  · intro ds maxN hneg hne
    exact ⟨scoreAndTruncate_neg s env ds maxN hneg, withStats_neg s env ds maxN hneg hne⟩
  · intro ds maxN hneg
    exact scoreAndTruncate_neg s env ds maxN hneg

/-- C9 (witness): limit 0 returns nothing and drops all three concrete
decisions; limit -1 hits the panic on the same input. -/
theorem truncation_total_iff_nonneg_witness :
    (∃ r stats, sC3.ScoreAndTruncateWithStats env0 dsC3 0 = some (r, stats) ∧ r = []) ∧
    sC3.ScoreAndTruncate env0 dsC3 (-1) = none := by
  constructor
  · obtain ⟨r, stats, heq, _, hzero⟩ :=
      (truncation_total_iff_nonneg sC3 env0).2.1 dsC3 0 (by decide)
    exact ⟨r, stats, heq, (hzero rfl).1⟩
  · exact (truncation_total_iff_nonneg sC3 env0).2.2.2 dsC3 (-1) (by decide)

/-- C4 (counterexample): the compiled patterns come from ranging over a Go
map, whose iteration order is unspecified, not insertion order. With the
map `[("web-.*", 10), (".*-attack", 20)]` (insertion order) compiled from
the reversed enumeration — a permutation of the entries, hence a possible
map iteration — the code resolves `"web-attack"` to 20, while the claim's
insertion-order resolution (`specScenarioScore`) mandates 10. -/
theorem scenario_lookup_insertion_order_cex :
    (mC4.reverse).Perm mC4 ∧
    (compilePatterns compileC4 mC4.reverse).isOk = true ∧
    cfgC4.GetScenarioScore "web-attack" = 20 ∧
    specScenarioScore mC4 compileC4 "web-attack" = 10 ∧
    (20 : Int) ≠ 10 := by decide

/-- C4 (amended): scenario-score resolution order is (1) the exact entry
for `s` in the scenarios mapping, (2) otherwise the score of the first
compiled pattern — the compiled list following the map's iteration order,
which is unspecified rather than insertion order — that matches `s`,
(3) otherwise the `"default"` entry, (4) otherwise 0; and a successful
compilation contains exactly the non-`"default"` entries of the
enumeration it was given, in that enumeration's order. -/
theorem scenario_lookup_resolution (s : ScoringConfig) (scenario : String) :
    (∀ v, s.Scenarios.lookup scenario = some v → s.GetScenarioScore scenario = v) ∧
    (s.Scenarios.lookup scenario = none →
      ∀ sp, s.compiledScenarios.find? (fun q => q.pattern scenario) = some sp →
        s.GetScenarioScore scenario = sp.score) ∧
    (s.Scenarios.lookup scenario = none →
      s.compiledScenarios.find? (fun q => q.pattern scenario) = none →
      s.GetScenarioScore scenario = (s.Scenarios.lookup "default").getD 0) ∧
    (∀ (compile : String → Option (String → Bool)) (enum : List (String × Int))
        (l : List ScenarioPattern),
      compilePatterns compile enum = .ok l →
      l.map (fun sp => (sp.raw, sp.score)) = enum.filter (fun kv => !(kv.1 == "default"))) := by
  refine ⟨?_, ?_, ?_, fun compile enum l h => compilePatterns_ok_map compile enum l h⟩
  · intro v hv
    unfold ScoringConfig.GetScenarioScore
    rw [hv]
  · intro hnone sp hsp
    unfold ScoringConfig.GetScenarioScore
    rw [hnone, hsp]
  · intro hnone hfind
    unfold ScoringConfig.GetScenarioScore
    rw [hnone, hfind]

/-- C4 (witness): an exact entry wins — `"web-.*"` is present as a key of
the C4 map and resolves to its own score 10. -/
theorem scenario_lookup_resolution_witness :
    cfgC4.Scenarios.lookup "web-.*" = some 10 ∧ cfgC4.GetScenarioScore "web-.*" = 10 :=
  ⟨by decide, (scenario_lookup_resolution cfgC4 "web-.*").1 10 (by decide)⟩

/-- C5 (counterexample): a decision with scope `"range"` whose value
`"1.2.3.4"` contains no `/` takes the CIDR branch with prefix length 32:
with the range `[25, 32] → 7` configured, the code's CIDR factor (and the
whole score) is 7, while the claim mandates 0 for such a decision. -/
theorem cidr_factor_range_scope_cex :
    cidrFactor sC5 env0 dC5 = 7 ∧
    specCIDRFactor sC5 env0 dC5 = 0 ∧
    sC5.Score env0 dC5 = 7 ∧
    (7 : Int) ≠ 0 := by decide

/-- C5 (amended): the CIDR factor is the bonus for `parsePrefixLen(value)`
(the parsed prefix length, or 32 when the value has no `/` or fails to
parse) whenever the scope is `"range"` or the value contains `/`;
otherwise the bonus for 32 when the scope is `ip`, `Ip` or empty;
otherwise 0. `GetCIDRBonus` is the bonus of the first configured range
containing the prefix length, and the CIDR factor is the last summand of
the decision's score. -/
theorem cidr_factor_resolution (s : Scorer) (env : Env) (d : Decision) :
    ((d.Scope == "range" || strContains d.Value '/') = true →
      cidrFactor s env d = s.config.GetCIDRBonus (parsePrefixLen env d.Value)) ∧
    ((d.Scope == "range" || strContains d.Value '/') = false →
      (d.Scope == "ip" || d.Scope == "Ip" || d.Scope == "") = true →
      cidrFactor s env d = s.config.GetCIDRBonus 32) ∧
    ((d.Scope == "range" || strContains d.Value '/') = false →
      (d.Scope == "ip" || d.Scope == "Ip" || d.Scope == "") = false →
      cidrFactor s env d = 0) ∧
    (∀ p, s.config.GetCIDRBonus p =
      ((s.config.CIDRBonuses.find? fun cb =>
          decide (cb.MinPrefixLen ≤ p) && decide (p ≤ cb.MaxPrefixLen)).map
        CIDRBonus.Bonus).getD 0) ∧
    s.Score env d =
      scenarioFactor s d + originFactor s d + ttlFactor s d + decisionTypeFactor s d +
        freshnessFactor s env d + cidrFactor s env d := by
  refine ⟨?_, ?_, ?_, fun p => rfl, Score_eq_factors s env d⟩
  · intro hc
    unfold cidrFactor
    rw [if_pos hc]
  · intro hc hip
    unfold cidrFactor
    rw [if_neg (by simp [hc]), if_pos hip]
  · intro hc hip
    unfold cidrFactor
    rw [if_neg (by simp [hc]), if_neg (by simp [hip])]

/-- C5 (witness): the `"range"`-scope decision `dC5` takes the first
branch and receives the bonus for prefix length 32. -/
theorem cidr_factor_resolution_witness :
    (dC5.Scope == "range" || strContains dC5.Value '/') = true ∧
    cidrFactor sC5 env0 dC5 = sC5.config.GetCIDRBonus (parsePrefixLen env0 dC5.Value) :=
  ⟨by decide, (cidr_factor_resolution sC5 env0 dC5).1 (by decide)⟩

/-- C10: a freshness tier whose `max_age` does not parse is skipped at
scoring time — the lookup equals the lookup over the parseable tiers only,
and yields 0 when no parseable tier covers the age; configuration loading
is independent of the freshness tiers (an unparseable `max_age` can never
fail it), whereas a scenario pattern the regex compiler rejects always
fails it. -/
theorem freshness_unparseable_skipped :
    (∀ (s : ScoringConfig) (pd : String → Option Int) (age : Int),
      s.GetFreshnessBonus pd age =
        ScoringConfig.GetFreshnessBonus
          { s with FreshnessBonuses :=
              s.FreshnessBonuses.filter (fun fb => (pd fb.MaxAge).isSome) } pd age) ∧
    (∀ (pd : String → Option Int) (age : Int) (tiers : List FreshnessBonus),
      (∀ fb ∈ tiers, ∀ m, pd fb.MaxAge = some m → ¬ age ≤ m) →
      freshnessLookup pd age tiers = 0) ∧
    (∀ (compile : String → Option (String → Bool)) (cfg : Config)
        (fbs : List FreshnessBonus),
      loadChecks compile { cfg with Scoring := { cfg.Scoring with FreshnessBonuses := fbs } } =
        loadChecks compile cfg) ∧
    (∀ (compile : String → Option (String → Bool)) (cfg : Config) (p : String) (v : Int),
      (p, v) ∈ cfg.Scoring.Scenarios → ¬ p = "default" → compile ("^" ++ p ++ "$") = none →
      ∃ e, loadChecks compile cfg = .error e) := by
  refine ⟨?_, freshnessLookup_eq_zero, fun compile cfg fbs => rfl, ?_⟩
  · intro s pd age
    unfold ScoringConfig.GetFreshnessBonus
    exact freshnessLookup_filter pd age s.FreshnessBonuses
  · intro compile cfg p v hmem hp hc
    unfold loadChecks
    cases hval : cfg.Validate with
    | error e => exact ⟨e, rfl⟩
    | ok u =>
      obtain ⟨e, he⟩ := compilePatterns_error_of_bad compile cfg.Scoring.Scenarios p v hmem hp hc
      rw [he]
      exact ⟨e, rfl⟩

/-- C10 (witness): loading a configuration with the single scenario
pattern `"("` under a compiler that rejects it fails; the freshness-tier
lookup over one unparseable tier is 0. -/
theorem freshness_unparseable_skipped_witness :
    (("(", (1 : Int)) ∈ cfgBad.Scoring.Scenarios ∧ ¬ "(" = "default" ∧
      compileNone ("^" ++ "(" ++ "$") = none) ∧
    (∃ e, loadChecks compileNone cfgBad = .error e) ∧
    ScoringConfig.GetFreshnessBonus
        { zeroScoring with FreshnessBonuses := [{ MaxAge := "nonsense", Bonus := 9 }] }
        env0.parseDuration 5 = 0 :=
  ⟨⟨by decide, by decide, rfl⟩,
    freshness_unparseable_skipped.2.2.2 compileNone cfgBad "(" 1 (by decide) (by decide) rfl,
    by rw [(freshness_unparseable_skipped.1 _ env0.parseDuration 5)]; decide⟩

/-- The false-negative tally of one auditor pass is non-negative. -/
theorem countFalseNegatives_nonneg (dropped : List String) (alerts : List Alert) :
    0 ≤ countFalseNegatives dropped alerts := by
  unfold countFalseNegatives
  suffices h : ∀ (l : List Alert) (acc : Int),
      acc ≤ l.foldl
        (fun acc alert =>
          let ip := if alert.SourceValue == "" then alert.SourceIPStr else alert.SourceValue
          if ip == "" then acc else if dropped.contains ip then acc + 1 else acc)
        acc by
    exact h alerts 0
  intro l
  induction l with
  | nil => intro acc; exact le_refl acc
  | cons a l ih =>
    intro acc
    refine le_trans ?_ (ih _)
    dsimp only
    split_ifs <;> omega

/-- C6 (counterexample): a tick whose alert fetch fails while the
dropped-IP snapshot is non-empty leaves the whole state — including the
last-check timestamp — untouched: `last_check` stays 0 instead of being
set to the tick's time 100. -/
theorem auditor_lastcheck_cex :
    runFalseNegativeCheck stC6 100 (Except.error "boom") = stC6 ∧
    stC6.falseNegativeLastCheck = 0 ∧
    (0 : Int) ≠ 100 := by decide

/-- C6 (amended): an auditor tick never changes the dropped-IP snapshot;
a tick with an empty snapshot only stores the last-check timestamp; a tick
whose alert fetch fails leaves the state — the counter, the snapshot and
the last-check timestamp — entirely untouched; and a tick whose fetch
succeeds stores the timestamp and adds the false-negative count. -/
theorem auditor_tick_behavior (st : HandlerState) (now : Int)
    (fetch : Except String (List Alert)) :
    (runFalseNegativeCheck st now fetch).droppedIPs = st.droppedIPs ∧
    (st.droppedIPs.isEmpty = true →
      runFalseNegativeCheck st now fetch = { st with falseNegativeLastCheck := now }) ∧
    (∀ e, st.droppedIPs.isEmpty = false → fetch = .error e →
      runFalseNegativeCheck st now fetch = st) ∧
    (∀ alerts, fetch = .ok alerts →
      (runFalseNegativeCheck st now fetch).falseNegativeLastCheck = now ∧
      (runFalseNegativeCheck st now fetch).falseNegativesTotal =
        st.falseNegativesTotal +
          (if st.droppedIPs.isEmpty = true then 0
           else countFalseNegatives st.droppedIPs alerts)) := by
  by_cases hE : st.droppedIPs.isEmpty = true
  · refine ⟨?_, fun _ => ?_, ?_, ?_⟩
    · unfold runFalseNegativeCheck
      rw [if_pos hE]
    · unfold runFalseNegativeCheck
      rw [if_pos hE]
    · intro e hfalse _
      rw [hE] at hfalse
      cases hfalse
    · intro alerts hok
      unfold runFalseNegativeCheck
      rw [if_pos hE, if_pos hE]
      exact ⟨rfl, by simp⟩
  · have hE' : st.droppedIPs.isEmpty = false := by
      cases h : st.droppedIPs.isEmpty
      · rfl
      · exact absurd h hE
    cases fetch with
    | error e =>
      refine ⟨?_, ?_, ?_, ?_⟩
      · unfold runFalseNegativeCheck
        rw [if_neg hE]
      · intro h
        exact absurd h hE
      · intro e' _ _
        unfold runFalseNegativeCheck
        rw [if_neg hE]
      · intro alerts hok
        cases hok
    | ok alerts =>
      have hrun : runFalseNegativeCheck st now (.ok alerts) =
          if 0 < countFalseNegatives st.droppedIPs alerts then
            { st with
              falseNegativesTotal :=
                st.falseNegativesTotal + countFalseNegatives st.droppedIPs alerts
              falseNegativeLastCheck := now }
          else { st with falseNegativeLastCheck := now } := by
        unfold runFalseNegativeCheck
        rw [if_neg hE]
        dsimp only
        split <;> rfl
      have hnn := countFalseNegatives_nonneg st.droppedIPs alerts
      refine ⟨?_, ?_, ?_, ?_⟩
      · rw [hrun]
        split <;> rfl
      · intro h
        exact absurd h hE
      · intro e' _ h
        cases h
      · intro alerts' hok
        have halerts : alerts = alerts' := by injection hok
        subst halerts
        rw [hrun, if_neg hE]
        by_cases hcnt : 0 < countFalseNegatives st.droppedIPs alerts
        · rw [if_pos hcnt]
          exact ⟨rfl, rfl⟩
        · rw [if_neg hcnt]
          have hc0 : countFalseNegatives st.droppedIPs alerts = 0 := by omega
          rw [hc0]
          exact ⟨rfl, by simp⟩

/-- C6 (witness): the amended behaviour at the concrete failing tick —
the state is untouched on an alert-fetch failure with a non-empty
snapshot. -/
theorem auditor_tick_behavior_witness :
    stC6.droppedIPs.isEmpty = false ∧
    runFalseNegativeCheck stC6 100 (Except.error "x") = stC6 :=
  ⟨by decide, (auditor_tick_behavior stC6 100 (Except.error "x")).2.2.1 "x" (by decide) rfl⟩

/-- C7: a GET `/v1/decisions` request whose cache lookup misses (empty
slot, or a slot older than `cache_ttl`) and whose upstream fetch fails
increments only the failed-request counter and answers 502 with the
plain-text reason; every cache-slot field — decisions, stored-at time,
stats, hit and miss counters — and the dropped-IP snapshot are exactly
those of the pre-request state. -/
theorem decisions_upstream_error_preserves_cache (cfg : Config) (env : Env)
    (st : HandlerState) (msg : String)
    (hmiss : st.cache = none ∨ ¬ (env.now - st.cacheTime < cfg.CacheTTL)) :
    ∃ st', handleDecisions cfg env st (.error msg) =
        some (st', .badGateway "failed to fetch decisions from upstream") ∧
      st'.failedRequests = st.failedRequests + 1 ∧
      st'.cache = st.cache ∧ st'.cacheTime = st.cacheTime ∧
      st'.cacheStats = st.cacheStats ∧ st'.cacheHits = st.cacheHits ∧
      st'.cacheMisses = st.cacheMisses ∧ st'.droppedIPs = st.droppedIPs := by
  refine ⟨{ st with failedRequests := st.failedRequests + 1 }, ?_,
    rfl, rfl, rfl, rfl, rfl, rfl, rfl⟩
  unfold handleDecisions getCachedDecisions
  obtain ⟨c0, ct, cs, ch, cm, tr, fr, di, fnt, flc⟩ := st
  rcases hmiss with hnone | httl
  · simp only at hnone
    subst hnone
    rfl
  · cases c0 with
    | none => rfl
    | some c =>
      dsimp only
      rw [if_neg httl]

/-- C7 (witness): a concrete miss (empty cache slot) with a failed
upstream fetch. -/
theorem decisions_upstream_error_preserves_cache_witness :
    stC6.cache = none ∧
    ∃ st', handleDecisions cfgW env0 stC6 (.error "boom") =
        some (st', .badGateway "failed to fetch decisions from upstream") ∧
      st'.failedRequests = stC6.failedRequests + 1 ∧ st'.cacheMisses = stC6.cacheMisses := by
  refine ⟨rfl, ?_⟩
  obtain ⟨st', heq, hfail, -, -, -, -, hmiss, -⟩ :=
    decisions_upstream_error_preserves_cache cfgW env0 stC6 "boom" (Or.inl rfl)
  exact ⟨st', heq, hfail, hmiss⟩

/-- C8: a stream request that succeeds upstream always returns the
upstream `deleted` sequence verbatim — same elements, same order, never
scored, never truncated — while `new` alone is scored and truncated to
`max_decisions` (an empty `new` passes through and leaves the state
unchanged; a non-empty `new` is replaced by the scored-and-truncated
prefix and the pass's stats and dropped IPs are stored). -/
theorem stream_deleted_passthrough (cfg : Config) (env : Env) (st : HandlerState)
    (stream : DecisionStream) (h : 0 ≤ cfg.MaxDecisions) :
    ∃ st' out, handleDecisionsStream cfg env st (.ok stream) = some (st', .okJSON out) ∧
      out.Deleted = stream.Deleted ∧
      (stream.New.isEmpty = true → out.New = stream.New ∧ st' = st) ∧
      (stream.New.isEmpty = false →
        ∃ stats,
          (Scorer.mk cfg.Scoring).ScoreAndTruncateWithStats env stream.New cfg.MaxDecisions =
            some (out.New, stats) ∧
          out.New =
            ((Scorer.mk cfg.Scoring).ScoreAndSort env stream.New).take cfg.MaxDecisions.toNat ∧
          st' = { st with droppedIPs := stats.DroppedIPs, cacheStats := stats }) := by
  by_cases hne : stream.New.isEmpty = true
  · refine ⟨st, stream, ?_, rfl, fun _ => ⟨rfl, rfl⟩, fun hfalse => absurd hne (by rw [hfalse]; simp)⟩
    unfold handleDecisionsStream
    dsimp only
    rw [if_pos hne]
  · obtain ⟨stats, heq, -, -, -⟩ :=
      withStats_eq (Scorer.mk cfg.Scoring) env stream.New cfg.MaxDecisions h
    refine ⟨{ st with droppedIPs := stats.DroppedIPs, cacheStats := stats },
      { New := ((Scorer.mk cfg.Scoring).ScoreAndSort env stream.New).take cfg.MaxDecisions.toNat,
        Deleted := stream.Deleted }, ?_, rfl, fun htrue => absurd htrue hne,
      fun _ => ⟨stats, heq, rfl, rfl⟩⟩
    unfold handleDecisionsStream
    dsimp only
    rw [if_neg hne, heq]

/-- C8 (witness): a stream with an empty `new` slice and one deleted
decision passes `deleted` through unchanged. -/
theorem stream_deleted_passthrough_witness :
    ∃ st' out, handleDecisionsStream cfgW env0 stC6 (.ok streamW) = some (st', .okJSON out) ∧
      out.Deleted = streamW.Deleted := by
  obtain ⟨st', out, heq, hdel, -, -⟩ :=
    stream_deleted_passthrough cfgW env0 stC6 streamW (by decide)
  exact ⟨st', out, heq, hdel⟩
